import Mathlib

/-!
Verification development for the xoron script-environment runtime
(`src/xoron_env.cpp`): environment tables, the closure hook engine,
thread identities, GC introspection, and the connection shim.

The embedding models Lua values with explicit heap addresses: object
identity (what `lua_topointer` observes) is the address.  Host Luau C-API
primitives (`lua_ref`, `lua_rawget`, `lua_clonefunction`, ...) are modelled
with their documented semantics; the functions under verification
(`lua_hookfunction`, `lua_getsenv`, ...) are translated line by line from
`src/xoron_env.cpp`.
-/

set_option maxHeartbeats 1000000

namespace Xoron

/-- A Lua value.  Reference types (tables, closures, userdata) carry the
address of their heap cell; equality of such values is identity equality,
exactly what `lua_rawequal` / `lua_topointer` compare. -/
inductive Value where
  | nil
  | boolean (b : Bool)
  | number (n : Int)
  | str (s : String)
  | table (addr : Nat)
  | closure (addr : Nat)
  | userdata (addr : Nat)
deriving DecidableEq, Repr

/-- `lua_isfunction`. -/
def Value.isFunction : Value → Bool
  | .closure _ => true
  | _ => false

/-- A Lua closure object.  `behavior` abstracts the code plus captured
state that runs when the closure is invoked; `isC` distinguishes C
closures from Lua closures; `envAddr` is the function environment
(`lua_getfenv`). -/
structure Closure where
  behavior : Nat
  isC : Bool
  envAddr : Option Nat
deriving DecidableEq, Repr

/-- A Lua table object: its entries, optional metatable address, and the
Luau read-only flag. -/
structure Table where
  entries : List (Value × Value)
  meta : Option Nat
  readonly : Bool
deriving DecidableEq, Repr

/-- A userdata object (only its metatable matters here). -/
structure Udata where
  meta : Option Nat
deriving DecidableEq, Repr

/-- One entry of `g_hook_registry` (struct `HookEntry` in the source):
the two registry references held for a hooked target. -/
structure HookEntry where
  originalRef : Nat
  hookRef : Nat
deriving DecidableEq, Repr

/-- Association-list lookup by `Nat` key (first match), modelling
`std::unordered_map::find`. -/
def lookupA {β : Type} (l : List (Nat × β)) (k : Nat) : Option β :=
  match l with
  | [] => none
  | (k', v) :: rest => if k' = k then some v else lookupA rest k

/-- Map assignment `m[k] = v` of `std::unordered_map`: any previous entry
for `k` is replaced. -/
def setA {β : Type} (l : List (Nat × β)) (k : Nat) (v : β) : List (Nat × β) :=
  (k, v) :: l.filter (fun p => p.1 != k)

/-- Map erasure `m.erase(k)`. -/
def eraseA {β : Type} (l : List (Nat × β)) (k : Nat) : List (Nat × β) :=
  l.filter (fun p => p.1 != k)

/-- Raw lookup in a table's entry list (`lua_rawget`): a missing key reads
as `nil`. -/
def rawgetE (l : List (Value × Value)) (k : Value) : Value :=
  match l with
  | [] => .nil
  | (k', v) :: rest => if k' = k then v else rawgetE rest k

/-- Raw store into a table's entry list: storing `nil` deletes the key,
otherwise the first binding of the key is updated in place (or appended
if absent), as in a Lua table. -/
def rawsetE (l : List (Value × Value)) (k v : Value) : List (Value × Value) :=
  match l with
  | [] => if v = .nil then [] else [(k, v)]
  | (k', v') :: rest =>
    if k' = k then (if v = .nil then rest else (k, v) :: rest)
    else (k', v') :: rawsetE rest k v

/-- The modelled Lua interpreter state: the object heaps, the registry
reference table driven by `lua_ref`/`lua_unref`, and the pieces of
process-global state that `xoron_env.cpp` keeps (hook registry and the
`_XORON_*` registry fields). -/
structure LuaState where
  tables : List Table
  closures : List Closure
  udatas : List Udata
  registryRefs : List (Nat × Value)
  nextRef : Nat
  hookRegistry : List (Nat × HookEntry)
  globalsAddr : Nat
  genv : Option Nat
  scriptEnvs : Option Nat
  moduleEnvs : Option Nat
deriving DecidableEq, Repr

def LuaState.getTable (s : LuaState) (a : Nat) : Option Table :=
  s.tables[a]?

def LuaState.setTable (s : LuaState) (a : Nat) (t : Table) : LuaState :=
  { s with tables := s.tables.set a t }

/-- `lua_newtable`: allocate a fresh table cell; its address is the
current heap size, hence distinct from every live address. -/
def LuaState.newTable (s : LuaState) (t : Table) : LuaState × Nat :=
  ({ s with tables := s.tables ++ [t] }, s.tables.length)

/-- `lua_ref(L, LUA_REGISTRYINDEX)`: pin a value under a fresh reference
id. -/
def luaRef (s : LuaState) (v : Value) : LuaState × Nat :=
  ({ s with registryRefs := (s.nextRef, v) :: s.registryRefs,
            nextRef := s.nextRef + 1 }, s.nextRef)

/-- `lua_unref`: drop a held reference. -/
def luaUnref (s : LuaState) (r : Nat) : LuaState :=
  { s with registryRefs := s.registryRefs.filter (fun p => p.1 != r) }

/-- `lua_rawget` on the table at address `a`. -/
def rawget (s : LuaState) (a : Nat) (k : Value) : Value :=
  match s.getTable a with
  | some t => rawgetE t.entries k
  | none => .nil

/-- `lua_rawset` on the table at address `a`; errors (`none`) on a `nil`
key, a read-only table, or a dangling address. -/
def rawset (s : LuaState) (a : Nat) (k v : Value) : Option LuaState :=
  if k = .nil then none
  else
    match s.getTable a with
    | some t =>
      if t.readonly then none
      else some (s.setTable a { t with entries := rawsetE t.entries k v })
    | none => none

/-- `lua_gettable`/`lua_getfield`: raw lookup, then the `__index` chain of
the metatable (only table-valued `__index` occurs in this codebase).
`fuel` bounds the chain; `none` means a case outside the model. -/
def luaGet (s : LuaState) : Nat → Nat → Value → Option Value
  | 0, _, _ => none
  | fuel + 1, a, k =>
    match s.getTable a with
    | none => none
    | some t =>
      let v := rawgetE t.entries k
      if v = .nil then
        match t.meta with
        | none => some .nil
        | some m =>
          match rawget s m (.str "__index") with
          | .nil => some .nil
          | .table g => luaGet s fuel g k
          | _ => none
      else some v

/-- `lua_settable`/`lua_setfield`: raw store when the key is present or no
table-valued `__newindex` intervenes; follows a table-valued `__newindex`
otherwise (never exercised by this codebase's environment tables). -/
def luaSet (s : LuaState) : Nat → Nat → Value → Value → Option LuaState
  | 0, _, _, _ => none
  | fuel + 1, a, k, v =>
    match s.getTable a with
    | none => none
    | some t =>
      if rawgetE t.entries k = .nil then
        match t.meta with
        | none => rawset s a k v
        | some m =>
          match rawget s m (.str "__newindex") with
          | .nil => rawset s a k v
          | .table h => luaSet s fuel h k v
          | _ => none
      else rawset s a k v

/-- `lua_getmetatable`: tables and userdata may carry a metatable. -/
def luaGetmetatable (s : LuaState) (v : Value) : Option Nat :=
  match v with
  | .table a => (s.getTable a).bind (fun t => t.meta)
  | .userdata a => (s.udatas[a]?).bind (fun u => u.meta)
  | _ => none

/-- `lua_clonefunction`: allocate a fresh closure cell holding a copy of
the source closure — same code and captured state (`behavior`, `isC`,
`envAddr`), new identity. -/
def luaClonefunction (s : LuaState) (a : Nat) : Option (LuaState × Nat) :=
  match s.closures[a]? with
  | none => none
  | some c => some ({ s with closures := s.closures ++ [c] }, s.closures.length)

/-- Modelled from the spec: the host-runtime primitive "overwrite a
callable's behavior in place" (spec §6), by which the host redirects
future invocations of an existing callable identity; it is assumed, not
implemented, in `src/xoron_env.cpp`. -/
def overwriteBehavior (s : LuaState) (a : Nat) (b : Nat) : LuaState :=
  match s.closures[a]? with
  | some c => { s with closures := s.closures.set a { c with behavior := b } }
  | none => s

/-! ### Functions translated from `src/xoron_env.cpp` -/

/-- `push_global_env` (xoron_env.cpp:91-106): fetch `_XORON_GENV` from the
registry, creating on first use a fresh table whose metatable routes
lookup misses (`__index`) to the host global table. -/
def push_global_env (s : LuaState) : LuaState × Nat :=
  match s.genv with
  | some a => (s, a)
  | none =>
    let p1 := s.newTable ⟨[], none, false⟩
    let p2 := p1.1.newTable ⟨[(.str "__index", .table s.globalsAddr)], none, false⟩
    match p2.1.getTable p1.2 with
    | some t =>
      ({ p2.1.setTable p1.2 { t with meta := some p2.2 } with genv := some p1.2 }, p1.2)
    | none => (p2.1, p1.2)

/-- `lua_getsenv` (xoron_env.cpp:179-208): look the key up in the
`_XORON_SCRIPT_ENVS` cache (created on demand); on a miss, create a fresh
environment table whose metatable falls back to the host globals, cache
it under the key, and return it. -/
def lua_getsenv (s : LuaState) (k : Value) : Option (LuaState × Value) :=
  let p :=
    match s.scriptEnvs with
    | some a => (s, a)
    | none =>
      let q := s.newTable ⟨[], none, false⟩
      ({ q.1 with scriptEnvs := some q.2 }, q.2)
  let cached := rawget p.1 p.2 k
  if cached = .nil then
    let e := p.1.newTable ⟨[], none, false⟩
    let m := e.1.newTable ⟨[(.str "__index", .table e.1.globalsAddr)], none, false⟩
    match m.1.getTable e.2 with
    | none => none
    | some t =>
      let s4 := m.1.setTable e.2 { t with meta := some m.2 }
      match rawset s4 p.2 k (.table e.2) with
      | none => none
      | some s5 => some (s5, .table e.2)
  else some (p.1, cached)

/-- `lua_getmenv` (xoron_env.cpp:143-176): a function key yields that
function's own environment (`lua_getfenv`, with a fresh table if it is
nil); a userdata key goes through the `_XORON_MODULE_ENVS` cache; any
other key gets a fresh table. -/
def lua_getmenv (s : LuaState) (k : Value) : Option (LuaState × Value) :=
  match k with
  | .closure a =>
    match s.closures[a]? with
    | none => none
    | some c =>
      match c.envAddr with
      | some e => some (s, .table e)
      | none =>
        let q := s.newTable ⟨[], none, false⟩
        some (q.1, .table q.2)
  | .userdata _ =>
    let p :=
      match s.moduleEnvs with
      | some a => (s, a)
      | none =>
        let q := s.newTable ⟨[], none, false⟩
        ({ q.1 with moduleEnvs := some q.2 }, q.2)
    let cached := rawget p.1 p.2 k
    if cached = .nil then
      let e := p.1.newTable ⟨[], none, false⟩
      match rawset e.1 p.2 k (.table e.2) with
      | none => none
      | some s3 => some (s3, .table e.2)
    else some (p.1, cached)
  | _ =>
    let q := s.newTable ⟨[], none, false⟩
    some (q.1, .table q.2)

/-- `lua_hookfunction` (xoron_env.cpp:368-401): type-check both
arguments, clone the target, take registry references to target and hook,
and assign a `HookEntry` into `g_hook_registry` keyed by the target's
pointer.  Note: a pre-existing entry for the same key is overwritten by
map assignment without `lua_unref` of its references. -/
def lua_hookfunction (s : LuaState) (target hookv : Value) : Option (LuaState × Value) :=
  match target, hookv with
  | .closure t, .closure _h =>
    match luaClonefunction s t with
    | none => none
    | some (s1, clone) =>
      let r1 := luaRef s1 target
      let r2 := luaRef r1.1 hookv
      let s4 := { r2.1 with
                  hookRegistry := setA r2.1.hookRegistry t ⟨r1.2, r2.2⟩ }
      some (s4, .closure clone)
  | _, _ => none

/-- `lua_restorefunction` (xoron_env.cpp:404-421): type-check, look the
target's pointer up in `g_hook_registry`; when found, `lua_unref` both
held references and erase the entry; otherwise do nothing. -/
def lua_restorefunction (s : LuaState) (target : Value) : Option LuaState :=
  match target with
  | .closure t =>
    match lookupA s.hookRegistry t with
    | some e =>
      let s1 := luaUnref s e.originalRef
      let s2 := luaUnref s1 e.hookRef
      some { s2 with hookRegistry := eraseA s2.hookRegistry t }
    | none => some s
  | _ => none

/-- `lua_isexecutorclosure` (xoron_env.cpp:282-309): a C function with
debug-name info reports `true`; otherwise a function whose pointer is in
`g_hook_registry` reports `true`; otherwise the result is
`lua_iscfunction`. -/
def lua_isexecutorclosure (s : LuaState) (v : Value) : Option Bool :=
  match v with
  | .closure a =>
    match s.closures[a]? with
    | none => none
    | some c =>
      if c.isC then some true
      else if (lookupA s.hookRegistry a).isSome then some true
      else some c.isC
  | _ => none

/-- `lua_hookmetamethod` (xoron_env.cpp:424-465): error if the object has
no metatable or the named method reads as nil from it; otherwise clone
the current handler, lift the metatable's read-only flag if set, write
the replacement under the method name, restore the flag, and return the
clone. -/
def lua_hookmetamethod (s : LuaState) (obj : Value) (method : String) (repl : Value) :
    Option (LuaState × Value) :=
  match repl with
  | .closure _ =>
    match luaGetmetatable s obj with
    | none => none
    | some mt =>
      match luaGet s 100 mt (.str method) with
      | none => none
      | some origv =>
        if origv = .nil then none
        else
          match origv with
          | .closure oa =>
            match luaClonefunction s oa with
            | none => none
            | some (s1, clone) =>
              match s1.getTable mt with
              | none => none
              | some mtT =>
                let wasRO := mtT.readonly
                let s2 := if wasRO then s1.setTable mt { mtT with readonly := false } else s1
                match luaSet s2 100 mt (.str method) repl with
                | none => none
                | some s3 =>
                  let s4 :=
                    if wasRO then
                      match s3.getTable mt with
                      | some t2 => s3.setTable mt { t2 with readonly := true }
                      | none => s3
                    else s3
                  some (s4, .closure clone)
          | _ => none
  | _ => none

/-- `lua_cloneref` (xoron_env.cpp:1430-1434): `lua_pushvalue(L, 1)` — the
argument itself is returned. -/
def lua_cloneref (v : Value) : Value := v

/-- `lua_compareinstances` (xoron_env.cpp:1422-1427): `lua_rawequal` of
the two arguments. -/
def lua_compareinstances (a b : Value) : Bool := a = b

/-- Reading through a table-valued handle (used to express that two
handles to the same instance observe the same data). -/
def rawgetV (s : LuaState) (v : Value) (k : Value) : Value :=
  match v with
  | .table a => rawget s a k
  | _ => .nil

/-! ### Thread identity registry (xoron_env.cpp:63-122, 482-490) -/

/-- `g_thread_identities` plus `g_default_identity`: the per-thread
identity map and the process-wide default. -/
structure IdentityState where
  identities : List (Nat × Int)
  defaultIdentity : Int
deriving DecidableEq, Repr

/-- `get_current_identity` (xoron_env.cpp:109-116): the calling thread's
entry, or the default when none was ever set. -/
def get_current_identity (st : IdentityState) (tid : Nat) : Int :=
  match lookupA st.identities tid with
  | some i => i
  | none => st.defaultIdentity

/-- `set_current_identity` (xoron_env.cpp:119-122). -/
def set_current_identity (st : IdentityState) (tid : Nat) (n : Int) : IdentityState :=
  { st with identities := setA st.identities tid n }

/-- `lua_setthreadidentity` (xoron_env.cpp:482-490): reject levels
outside `[0,8]` with an error, otherwise store for the calling thread. -/
def lua_setthreadidentity (st : IdentityState) (tid : Nat) (n : Int) :
    Option IdentityState :=
  if n < 0 ∨ n > 8 then none
  else some (set_current_identity st tid n)

/-! ### GC introspection (`lua_filtergc`, xoron_env.cpp:585-688) -/

/-- Debug-visible data of a registry function: `lua_iscfunction`, the
declared name (`lua_getinfo "n"`), the upvalue count (`"u"`), and the
source label (`"S"`). -/
structure GCFun where
  isC : Bool
  name : Option String
  nupvals : Int
  source : String
deriving DecidableEq, Repr

/-- A value met while iterating the registry, as classified by
`lua_type` in the filter loop. -/
inductive GCObj where
  | fn (f : GCFun)
  | tbl (id : Nat)
  | ud (id : Nat)
  | thr (id : Nat)
deriving DecidableEq, Repr

/-- The options table fields `lua_filtergc` reads: `Name`,
`UpvalueCount`, `ConstantCount` (read but never applied in the loop) and
`IgnoreExecutor`. -/
structure FilterOptions where
  name : Option String
  upvalueCount : Option Int
  constantCount : Option Int
  ignoreExecutor : Bool
deriving DecidableEq, Repr

/-- `strstr`-style substring test. -/
def strContainsAux (hay pat : List Char) : Bool :=
  match hay with
  | [] => pat.isEmpty
  | _ :: rest => if pat.isPrefixOf hay then true else strContainsAux rest pat

def strContains (hay pat : String) : Bool :=
  strContainsAux hay.toList pat.toList

/-- The per-function criteria of the `lua_filtergc` loop body
(xoron_env.cpp:643-677).  They run only under
`filter_type == LUA_TFUNCTION && !lua_iscfunction(...)`: a C function is
kept without any criterion being applied. -/
def funcMatches (o : FilterOptions) (f : GCFun) : Bool :=
  if f.isC then true
  else
    (match o.name with
     | some n => match f.name with
       | some fn => fn = n
       | none => false
     | none => true) &&
    (match o.upvalueCount with
     | some u => f.nupvals = u
     | none => true) &&
    (if o.ignoreExecutor then
       !(strContains f.source "@xoron" || strContains f.source "[string")
     else true)

/-- The registry iteration of `lua_filtergc`: keep objects of the
requested type (`kindFn = true` selects `LUA_TFUNCTION`), applying
`funcMatches` to Lua functions. -/
def filtergcLoop (o : FilterOptions) (kindFn : Bool) : List GCObj → List GCObj
  | [] => []
  | x :: rest =>
    let keep :=
      match x, kindFn with
      | .fn f, true => funcMatches o f
      | .tbl _, false => true
      | _, _ => false
    if keep then x :: filtergcLoop o kindFn rest
    else filtergcLoop o kindFn rest

/-- `lua_filtergc` (xoron_env.cpp:585-688): only kinds `"function"` and
`"table"` are accepted, any other kind is a hard error. -/
def lua_filtergc (objs : List GCObj) (kind : String) (o : FilterOptions) :
    Option (List GCObj) :=
  if kind = "function" then some (filtergcLoop o true objs)
  else if kind = "table" then some (filtergcLoop o false objs)
  else none

/-! ### Connection shim (xoron_env.cpp:79-86, 898-955) -/

/-- One `ConnectionInfo` record: the held callback reference
(`none` models `LUA_NOREF`) and the enabled flag. -/
structure ConnectionInfo where
  callbackRef : Option Nat
  enabled : Bool
deriving DecidableEq, Repr

/-- `g_connections` plus the registry slots the callback references pin. -/
structure ConnState where
  conns : List ConnectionInfo
  refs : List (Nat × Value)
deriving DecidableEq, Repr

/-- `connection_disconnect` (xoron_env.cpp:898-912): for a valid index,
release the callback reference if held, clear it to `LUA_NOREF`, and set
`enabled = false`; out-of-range indices are ignored. -/
def connection_disconnect (st : ConnState) (id : Nat) : ConnState :=
  match st.conns[id]? with
  | none => st
  | some c =>
    let st1 :=
      match c.callbackRef with
      | some r => { st with refs := st.refs.filter (fun p => p.1 != r) }
      | none => st
    { st1 with conns := st1.conns.set id ⟨none, false⟩ }

/-- `connection_enable` (xoron_env.cpp:914-924): set the flag for a valid
index; never an error. -/
def connection_enable (st : ConnState) (id : Nat) : ConnState :=
  match st.conns[id]? with
  | none => st
  | some c => { st with conns := st.conns.set id { c with enabled := true } }

/-- `connection_disable` (xoron_env.cpp:926-936). -/
def connection_disable (st : ConnState) (id : Nat) : ConnState :=
  match st.conns[id]? with
  | none => st
  | some c => { st with conns := st.conns.set id { c with enabled := false } }

/-- `connection_fire` (xoron_env.cpp:938-955): for a valid, enabled
record, `lua_rawgeti` the callback reference and `lua_pcall` it when it
is a function.  The result is the callback that would be invoked
(`none` = nothing is invoked); `LUA_NOREF` reads as nil, hence no call. -/
def connection_fire (st : ConnState) (id : Nat) : Option Value :=
  match st.conns[id]? with
  | none => none
  | some c =>
    if c.enabled then
      match c.callbackRef with
      | none => none
      | some r =>
        match lookupA st.refs r with
        | some v => if v.isFunction then some v else none
        | none => none
    else none

/-! ### Scenario states and step extractors -/

/-- Run `lua_hookfunction` for its state effect (identity on error). -/
def hookStep (s : LuaState) (a b : Value) : LuaState :=
  match lua_hookfunction s a b with
  | some p => p.1
  | none => s

/-- Run `lua_getmenv` returning state and value (identity/nil on error). -/
def menvStep (s : LuaState) (k : Value) : LuaState × Value :=
  match lua_getmenv s k with
  | some p => p
  | none => (s, .nil)

/-- A state with three Lua closures at addresses 0, 1, 2 and one (empty)
globals table. -/
def exampleHookState : LuaState :=
  ⟨[⟨[], none, false⟩], [⟨0, false, none⟩, ⟨1, false, none⟩, ⟨2, false, none⟩],
   [], [], 0, [], 0, none, none, none⟩

/-- `exampleHookState` after hooking closure 0 with closure 1 and then
again with closure 2. -/
def exampleRehooked : LuaState :=
  hookStep (hookStep exampleHookState (.closure 0) (.closure 1)) (.closure 0) (.closure 2)

/-- A state with just a (non-empty) globals table. -/
def exampleEnvState : LuaState :=
  ⟨[⟨[(.str "print", .number 10)], none, false⟩], [], [], [], 0, [], 0, none, none, none⟩

/-- A registry holding one C function whose declared name is `"beta"`. -/
def exampleCFun : GCObj := .fn ⟨true, some "beta", 0, ""⟩

/-- A state with an object (table 0) whose read-only metatable (table 1)
holds an `__index` handler (closure 0); closure 1 is the replacement. -/
def exampleMetaState : LuaState :=
  ⟨[⟨[], some 1, false⟩, ⟨[(.str "__index", .closure 0)], none, true⟩],
   [⟨0, false, none⟩, ⟨1, false, none⟩], [], [], 0, [], 0, none, none, none⟩

/-- A registry with the C function `"beta"` and two Lua closures named
`"alpha"` and `"beta"`. -/
def exampleGCReg : List GCObj :=
  [exampleCFun, .fn ⟨false, some "alpha", 0, ""⟩, .fn ⟨false, some "beta", 0, ""⟩]

/-- A state holding one Lua closure whose function environment is
table 0. -/
def exampleFnState : LuaState :=
  ⟨[⟨[], none, false⟩], [⟨0, false, some 0⟩], [], [], 0, [], 0, none, none, none⟩

/-- One connection record holding callback reference 7, which the
registry maps to closure 0. -/
def exampleConnState : ConnState := ⟨[⟨some 7, true⟩], [(7, .closure 0)]⟩

/-- `exampleEnvState` after a raw write of `x := 1` into table 0. -/
def rawsetStepW : LuaState :=
  match rawset exampleEnvState 0 (.str "x") (.number 1) with
  | some s => s
  | none => exampleEnvState

/-- Run `lua_getsenv` returning state and value (identity/nil on error). -/
def senvStep (s : LuaState) (k : Value) : LuaState × Value :=
  match lua_getsenv s k with
  | some p => p
  | none => (s, .nil)

/-- Run `luaSet` with fuel 100 for its state effect (identity on error). -/
def luaSetStep (s : LuaState) (a : Nat) (k v : Value) : LuaState :=
  match luaSet s 100 a k v with
  | some s' => s'
  | none => s

/-- Condition under which the `_XORON_SCRIPT_ENVS` cache (when present)
is a live, writable table, so `lua_getsenv` cannot fail on a valid key. -/
def scriptEnvsWritable (s : LuaState) : Bool :=
  match s.scriptEnvs with
  | some a =>
    match s.tables[a]? with
    | some t => !t.readonly
    | none => false
  | none => true

/-- Condition under which the `_XORON_MODULE_ENVS` cache (when present)
is a live, writable table. -/
def moduleEnvsWritable (s : LuaState) : Bool :=
  match s.moduleEnvs with
  | some a =>
    match s.tables[a]? with
    | some t => !t.readonly
    | none => false
  | none => true

/-- Keys that take `lua_getmenv`'s catch-all branch (neither a function
nor a userdata). -/
def Value.isEnvOpaque : Value → Bool
  | .closure _ => false
  | .userdata _ => false
  | _ => true

/-- The state produced by `lua_getsenv`'s fresh-environment path when the
`_XORON_SCRIPT_ENVS` cache lives at address `a` with contents `ta`: a new
environment table, its fallback metatable, the metatable link, and the
cache entry for `k`. -/
def getsenvFreshState (s : LuaState) (k : Value) (a : Nat) (ta : Table) : LuaState :=
  (((s.newTable ⟨[], none, false⟩).1.newTable
      ⟨[(.str "__index", .table s.globalsAddr)], none, false⟩).1.setTable
      s.tables.length ⟨[], some (s.tables.length + 1), false⟩).setTable a
      { ta with entries := rawsetE ta.entries k (.table s.tables.length) }

/-- The state produced by `lua_getmenv`'s fresh-environment path for a
userdata key when the `_XORON_MODULE_ENVS` cache lives at address `a`
with contents `ta`. -/
def getmenvFreshState (s : LuaState) (k : Value) (a : Nat) (ta : Table) : LuaState :=
  ((s.newTable ⟨[], none, false⟩).1).setTable a
    { ta with entries := rawsetE ta.entries k (.table s.tables.length) }

/-- A base state for the write-isolation scenario: host globals with
contents `g` at address 0, and the executor global environment
(`_XORON_GENV`, contents `ge`) at address 1 with its fallback metatable
at address 2. -/
def mkC6State (g ge : List (Value × Value)) : LuaState :=
  ⟨[⟨g, none, false⟩, ⟨ge, some 2, false⟩,
    ⟨[(.str "__index", .table 0)], none, false⟩],
   [], [], [], 0, [], 0, some 1, none, none⟩

/-- `mkC6State` after `lua_getsenv k`: the script-env cache at 3, the new
environment for `k` at 4 with its fallback metatable at 5. -/
def c6S1 (g ge : List (Value × Value)) (k : Value) : LuaState :=
  ⟨[⟨g, none, false⟩, ⟨ge, some 2, false⟩,
    ⟨[(.str "__index", .table 0)], none, false⟩,
    ⟨[(k, .table 4)], none, false⟩,
    ⟨[], some 5, false⟩,
    ⟨[(.str "__index", .table 0)], none, false⟩],
   [], [], [], 0, [], 0, some 1, some 3, none⟩

/-- `c6S1` after `lua_getsenv k2`: a second environment at 6 with its
metatable at 7. -/
def c6S2 (g ge : List (Value × Value)) (k k2 : Value) : LuaState :=
  ⟨[⟨g, none, false⟩, ⟨ge, some 2, false⟩,
    ⟨[(.str "__index", .table 0)], none, false⟩,
    ⟨[(k, .table 4), (k2, .table 6)], none, false⟩,
    ⟨[], some 5, false⟩,
    ⟨[(.str "__index", .table 0)], none, false⟩,
    ⟨[], some 7, false⟩,
    ⟨[(.str "__index", .table 0)], none, false⟩],
   [], [], [], 0, [], 0, some 1, some 3, none⟩

/-- `c6S2` after writing `key := v` through the first script
environment: only table 4 changes. -/
def c6S3 (g ge : List (Value × Value)) (k k2 key v : Value) : LuaState :=
  ⟨[⟨g, none, false⟩, ⟨ge, some 2, false⟩,
    ⟨[(.str "__index", .table 0)], none, false⟩,
    ⟨[(k, .table 4), (k2, .table 6)], none, false⟩,
    ⟨[(key, v)], some 5, false⟩,
    ⟨[(.str "__index", .table 0)], none, false⟩,
    ⟨[], some 7, false⟩,
    ⟨[(.str "__index", .table 0)], none, false⟩],
   [], [], [], 0, [], 0, some 1, some 3, none⟩

/-- Run `lua_hookfunction` for its returned value (`nil` on error). -/
def hookRet (s : LuaState) (a b : Value) : Value :=
  match lua_hookfunction s a b with
  | some p => p.2
  | none => .nil

/-! ### Helper lemmas -/

theorem getElem?_some_lt {α : Type} {l : List α} {i : Nat} {x : α}
    (h : l[i]? = some x) : i < l.length := by
  by_contra hlt
  rw [List.getElem?_eq_none (Nat.le_of_not_lt hlt)] at h
  exact Option.noConfusion h

theorem lookupA_filter_ne {β : Type} (l : List (Nat × β)) (k q : Nat) (h : q ≠ k) :
    lookupA (l.filter (fun p => p.1 != k)) q = lookupA l q := by
  have hkq : ¬ k = q := fun e => h e.symm
  induction l with
  | nil => rfl
  | cons hd tl ih =>
    rcases hd with ⟨a, b⟩
    by_cases ha : a = k
    · subst ha
      simpa [List.filter_cons, lookupA, hkq] using ih
    · by_cases haq : a = q
      · subst haq
        simp [List.filter_cons, lookupA, ha]
      · simp [List.filter_cons, lookupA, ha, haq, ih]

theorem lookupA_setA_self {β : Type} (l : List (Nat × β)) (k : Nat) (v : β) :
    lookupA (setA l k v) k = some v := by
  simp [setA, lookupA]

theorem lookupA_setA_ne {β : Type} (l : List (Nat × β)) (k q : Nat) (v : β)
    (h : q ≠ k) : lookupA (setA l k v) q = lookupA l q := by
  have hkq : ¬ k = q := fun e => h e.symm
  simp [setA, lookupA, hkq, lookupA_filter_ne l k q h]

theorem lookupA_eraseA_self {β : Type} (l : List (Nat × β)) (k : Nat) :
    lookupA (eraseA l k) k = none := by
  induction l with
  | nil => rfl
  | cons hd tl ih =>
    rcases hd with ⟨a, b⟩
    by_cases ha : a = k
    · subst ha; simpa [eraseA, List.filter_cons] using ih
    · simpa [eraseA, List.filter_cons, ha, lookupA] using ih

theorem filter_key_setA {β : Type} (l : List (Nat × β)) (k : Nat) (v : β) :
    ((setA l k v).filter (fun p => p.1 == k)).length = 1 := by
  have : ∀ m : List (Nat × β),
      (m.filter (fun p => p.1 != k)).filter (fun p => p.1 == k) = [] := by
    intro m
    induction m with
    | nil => rfl
    | cons hd tl ih =>
      by_cases ha : hd.1 = k
      · simp [List.filter_cons, ha, ih]
      · simp [List.filter_cons, ha, ih]
  simp [setA, List.filter_cons, this]

theorem rawgetE_rawsetE_self (l : List (Value × Value)) (k v : Value)
    (hv : v ≠ .nil) : rawgetE (rawsetE l k v) k = v := by
  induction l with
  | nil => simp [rawsetE, hv, rawgetE]
  | cons hd tl ih =>
    rcases hd with ⟨a, b⟩
    by_cases ha : a = k
    · subst ha; simp [rawsetE, hv, rawgetE]
    · simp [rawsetE, ha, rawgetE, ih]

theorem rawgetE_rawsetE_ne (l : List (Value × Value)) (k v q : Value)
    (hq : q ≠ k) : rawgetE (rawsetE l k v) q = rawgetE l q := by
  have hkq : ¬ k = q := fun e => hq e.symm
  induction l with
  | nil =>
    by_cases hv : v = .nil <;> simp [rawsetE, hv, rawgetE, hkq]
  | cons hd tl ih =>
    rcases hd with ⟨a, b⟩
    by_cases ha : a = k
    · subst ha
      by_cases hv : v = .nil <;>
        simp [rawsetE, hv, rawgetE, hkq]
    · simp [rawsetE, ha, rawgetE, ih]

theorem getTable_setTable_self (s : LuaState) (t : Table) (a : Nat)
    (ha : a < s.tables.length) : (s.setTable a t).getTable a = some t := by
  simp [LuaState.setTable, LuaState.getTable, List.getElem?_set_self ha]

theorem getTable_setTable_ne (s : LuaState) (t : Table) (a b : Nat)
    (h : b ≠ a) : (s.setTable a t).getTable b = s.getTable b := by
  simp [LuaState.setTable, LuaState.getTable, List.getElem?_set_ne (Ne.symm h)]

theorem getTable_newTable_old (s : LuaState) (t : Table) (a : Nat)
    (ha : a < s.tables.length) : (s.newTable t).1.getTable a = s.getTable a := by
  simp [LuaState.newTable, LuaState.getTable, List.getElem?_append_left ha]

theorem getTable_newTable_new (s : LuaState) (t : Table) :
    (s.newTable t).1.getTable (s.newTable t).2 = some t := by
  simp [LuaState.newTable, LuaState.getTable, List.getElem?_concat_length]

theorem luaGet_raw_hit (s : LuaState) (fuel a : Nat) (t : Table) (k v : Value)
    (ht : s.getTable a = some t) (hv : rawgetE t.entries k = v) (hnn : v ≠ .nil) :
    luaGet s (fuel + 1) a k = some v := by
  simp [luaGet, ht, hv, hnn]

theorem luaSet_raw_hit (s : LuaState) (fuel a : Nat) (t : Table) (k v w : Value)
    (ht : s.getTable a = some t) (hk : rawgetE t.entries k = w) (hnn : w ≠ .nil)
    (hro : t.readonly = false) (hknil : k ≠ .nil) :
    luaSet s (fuel + 1) a k v =
      some (s.setTable a { t with entries := rawsetE t.entries k v }) := by
  simp [luaSet, ht, hk, hnn, rawset, hknil, hro]

theorem luaGet_via_index (s : LuaState) (fuel a m g : Nat) (t : Table) (k : Value)
    (ht : s.getTable a = some t) (hmiss : rawgetE t.entries k = .nil)
    (hm : t.meta = some m) (hidx : rawget s m (.str "__index") = .table g) :
    luaGet s (fuel + 1) a k = luaGet s fuel g k := by
  simp [luaGet, ht, hmiss, hm, hidx]

theorem luaSet_miss_noNewindex (s : LuaState) (fuel a m : Nat) (t mt : Table)
    (k v : Value)
    (ht : s.getTable a = some t) (hmiss : rawgetE t.entries k = .nil)
    (hm : t.meta = some m) (hmt : s.getTable m = some mt)
    (hni : rawgetE mt.entries (.str "__newindex") = .nil)
    (hknil : k ≠ .nil) (hro : t.readonly = false) :
    luaSet s (fuel + 1) a k v =
      some (s.setTable a { t with entries := rawsetE t.entries k v }) := by
  simp [luaSet, ht, hmiss, hm, rawget, hmt, hni, rawset, hknil, hro]

theorem luaGet_noMeta (s : LuaState) (fuel a : Nat) (t : Table) (k : Value)
    (ht : s.getTable a = some t) (hm : t.meta = none) :
    luaGet s (fuel + 1) a k = some (rawgetE t.entries k) := by
  by_cases h : rawgetE t.entries k = .nil <;> simp [luaGet, ht, hm, h]

theorem getsenv_cached_eq (s : LuaState) (k : Value) (a : Nat)
    (hse : s.scriptEnvs = some a) (hhit : rawget s a k ≠ .nil) :
    lua_getsenv s k = some (s, rawget s a k) := by
  simp [lua_getsenv, hse, hhit]

theorem getsenv_fresh_some_eq (s : LuaState) (k : Value) (a : Nat) (ta : Table)
    (hk : k ≠ .nil) (hse : s.scriptEnvs = some a)
    (hta : s.getTable a = some ta) (hro : ta.readonly = false)
    (hmiss : rawget s a k = .nil) :
    lua_getsenv s k = some (getsenvFreshState s k a ta, .table s.tables.length) := by
  have ha : a < s.tables.length := getElem?_some_lt hta
  have hB : ((s.newTable ⟨[], none, false⟩).1.newTable
      ⟨[(.str "__index", .table s.globalsAddr)], none, false⟩).1.getTable
      s.tables.length = some ⟨[], none, false⟩ := by
    rw [getTable_newTable_old _ _ _ (by simp [LuaState.newTable])]
    exact getTable_newTable_new s _
  have ha4 : (((s.newTable ⟨[], none, false⟩).1.newTable
      ⟨[(.str "__index", .table s.globalsAddr)], none, false⟩).1.setTable
      s.tables.length ⟨[], some (s.tables.length + 1), false⟩).getTable a =
      some ta := by
    rw [getTable_setTable_ne _ _ _ _ (by omega),
      getTable_newTable_old _ _ _ (by simp [LuaState.newTable]; omega),
      getTable_newTable_old _ _ _ ha]
    exact hta
  simp [lua_getsenv, hse, hmiss, getsenvFreshState, LuaState.newTable,
    LuaState.setTable, LuaState.getTable, rawset, hk, hro] at hB ha4 ⊢
  simp [hB, ha4, hro]

theorem getsenvFreshState_scriptEnvs (s : LuaState) (k : Value) (a : Nat)
    (ta : Table) : (getsenvFreshState s k a ta).scriptEnvs = s.scriptEnvs := by
  simp [getsenvFreshState, LuaState.setTable, LuaState.newTable]

theorem getsenvFreshState_rawget (s : LuaState) (k : Value) (a : Nat)
    (ta : Table) (ha : a < s.tables.length + 2) :
    rawget (getsenvFreshState s k a ta) a k = .table s.tables.length := by
  have hg : (getsenvFreshState s k a ta).getTable a =
      some { ta with entries := rawsetE ta.entries k (.table s.tables.length) } := by
    apply getTable_setTable_self
    simpa [LuaState.setTable, LuaState.newTable] using ha
  have hr := rawgetE_rawsetE_self ta.entries k (.table s.tables.length) (by simp)
  simp [rawget, hg, hr]

theorem getsenv_none_reduce (s : LuaState) (k : Value) (hse : s.scriptEnvs = none) :
    lua_getsenv s k =
      lua_getsenv { s with
        tables := s.tables ++ [⟨[], none, false⟩],
        scriptEnvs := some s.tables.length } k := by
  simp [lua_getsenv, hse, LuaState.newTable]

theorem getsenv_stable (s : LuaState) (k : Value) (hk : k ≠ .nil)
    (hw : scriptEnvsWritable s = true) :
    (lua_getsenv s k).isSome ∧
    lua_getsenv (senvStep s k).1 k = some (senvStep s k) := by
  cases hse : s.scriptEnvs with
  | some a =>
    obtain ⟨ta, hta, hro⟩ : ∃ ta, s.getTable a = some ta ∧ ta.readonly = false := by
      simp only [scriptEnvsWritable, hse] at hw
      cases hget : s.tables[a]? with
      | none => rw [hget] at hw; simp at hw
      | some t =>
        rw [hget] at hw
        exact ⟨t, hget, by simpa using hw⟩
    by_cases hmiss : rawget s a k = .nil
    · have ha : a < s.tables.length := getElem?_some_lt hta
      have h1 := getsenv_fresh_some_eq s k a ta hk hse hta hro hmiss
      have hstep : senvStep s k = (getsenvFreshState s k a ta,
          .table s.tables.length) := by
        simp [senvStep, h1]
      refine ⟨by simp [h1], ?_⟩
      rw [hstep]
      have hse5 : (getsenvFreshState s k a ta).scriptEnvs = some a := by
        rw [getsenvFreshState_scriptEnvs, hse]
      have hhit := getsenvFreshState_rawget s k a ta (by omega)
      rw [getsenv_cached_eq _ k a hse5 (by rw [hhit]; simp), hhit]
    · have h1 := getsenv_cached_eq s k a hse hmiss
      refine ⟨by simp [h1], ?_⟩
      have hstep : senvStep s k = (s, rawget s a k) := by simp [senvStep, h1]
      rw [hstep]
      exact getsenv_cached_eq s k a hse hmiss
  | none =>
    have hred := getsenv_none_reduce s k hse
    have htaB : ({ s with
        tables := s.tables ++ [⟨[], none, false⟩],
        scriptEnvs := some s.tables.length } : LuaState).getTable
        s.tables.length = some ⟨[], none, false⟩ := by
      simp [LuaState.getTable, List.getElem?_concat_length]
    have hmissB : rawget { s with
        tables := s.tables ++ [⟨[], none, false⟩],
        scriptEnvs := some s.tables.length } s.tables.length k = .nil := by
      simp [rawget, htaB, rawgetE]
    have h1 : lua_getsenv s k = some
        (getsenvFreshState { s with
          tables := s.tables ++ [⟨[], none, false⟩],
          scriptEnvs := some s.tables.length } k s.tables.length ⟨[], none, false⟩,
         .table ({ s with
          tables := s.tables ++ [⟨[], none, false⟩],
          scriptEnvs := some s.tables.length } : LuaState).tables.length) :=
      hred.trans (getsenv_fresh_some_eq _ k s.tables.length ⟨[], none, false⟩
        hk rfl htaB rfl hmissB)
    have hstep : senvStep s k = (getsenvFreshState { s with
        tables := s.tables ++ [⟨[], none, false⟩],
        scriptEnvs := some s.tables.length } k s.tables.length ⟨[], none, false⟩,
        .table ({ s with
          tables := s.tables ++ [⟨[], none, false⟩],
          scriptEnvs := some s.tables.length } : LuaState).tables.length) := by
      simp [senvStep, h1]
    refine ⟨by simp [h1], ?_⟩
    rw [hstep]
    have hse5 : (getsenvFreshState { s with
        tables := s.tables ++ [⟨[], none, false⟩],
        scriptEnvs := some s.tables.length } k s.tables.length
        ⟨[], none, false⟩).scriptEnvs = some s.tables.length := by
      rw [getsenvFreshState_scriptEnvs]
    have hhit := getsenvFreshState_rawget { s with
        tables := s.tables ++ [⟨[], none, false⟩],
        scriptEnvs := some s.tables.length } k s.tables.length ⟨[], none, false⟩
      (by simp; omega)
    rw [getsenv_cached_eq _ k s.tables.length hse5 (by rw [hhit]; simp), hhit]

theorem getmenv_ud_cached_eq (s : LuaState) (u : Nat) (a : Nat)
    (hme : s.moduleEnvs = some a) (hhit : rawget s a (.userdata u) ≠ .nil) :
    lua_getmenv s (.userdata u) = some (s, rawget s a (.userdata u)) := by
  simp [lua_getmenv, hme, hhit]

theorem getmenv_ud_fresh_some_eq (s : LuaState) (u : Nat) (a : Nat) (ta : Table)
    (hme : s.moduleEnvs = some a) (hta : s.getTable a = some ta)
    (hro : ta.readonly = false) (hmiss : rawget s a (.userdata u) = .nil) :
    lua_getmenv s (.userdata u) = some
      (getmenvFreshState s (.userdata u) a ta, .table s.tables.length) := by
  have ha : a < s.tables.length := getElem?_some_lt hta
  have ha2 : ((s.newTable ⟨[], none, false⟩).1).getTable a = some ta := by
    rw [getTable_newTable_old _ _ _ ha]; exact hta
  simp [lua_getmenv, hme, hmiss, getmenvFreshState, LuaState.newTable,
    LuaState.setTable, LuaState.getTable, rawset, hro] at ha2 ⊢
  simp [ha2, hro]

theorem getmenv_ud_none_reduce (s : LuaState) (u : Nat)
    (hme : s.moduleEnvs = none) :
    lua_getmenv s (.userdata u) =
      lua_getmenv { s with
        tables := s.tables ++ [⟨[], none, false⟩],
        moduleEnvs := some s.tables.length } (.userdata u) := by
  simp [lua_getmenv, hme, LuaState.newTable]

theorem getmenvFreshState_moduleEnvs (s : LuaState) (k : Value) (a : Nat)
    (ta : Table) : (getmenvFreshState s k a ta).moduleEnvs = s.moduleEnvs := by
  simp [getmenvFreshState, LuaState.setTable, LuaState.newTable]

theorem getmenvFreshState_rawget (s : LuaState) (k : Value) (a : Nat)
    (ta : Table) (ha : a < s.tables.length + 1) :
    rawget (getmenvFreshState s k a ta) a k = .table s.tables.length := by
  have hg : (getmenvFreshState s k a ta).getTable a =
      some { ta with entries := rawsetE ta.entries k (.table s.tables.length) } := by
    apply getTable_setTable_self
    simpa [LuaState.setTable, LuaState.newTable] using ha
  have hr := rawgetE_rawsetE_self ta.entries k (.table s.tables.length) (by simp)
  simp [rawget, hg, hr]

theorem getmenv_ud_stable (s : LuaState) (u : Nat)
    (hw : moduleEnvsWritable s = true) :
    (lua_getmenv s (.userdata u)).isSome ∧
    lua_getmenv (menvStep s (.userdata u)).1 (.userdata u) =
      some (menvStep s (.userdata u)) := by
  cases hme : s.moduleEnvs with
  | some a =>
    obtain ⟨ta, hta, hro⟩ : ∃ ta, s.getTable a = some ta ∧ ta.readonly = false := by
      simp only [moduleEnvsWritable, hme] at hw
      cases hget : s.tables[a]? with
      | none => rw [hget] at hw; simp at hw
      | some t =>
        rw [hget] at hw
        exact ⟨t, hget, by simpa using hw⟩
    by_cases hmiss : rawget s a (.userdata u) = .nil
    · have ha : a < s.tables.length := getElem?_some_lt hta
      have h1 := getmenv_ud_fresh_some_eq s u a ta hme hta hro hmiss
      have hstep : menvStep s (.userdata u) =
          (getmenvFreshState s (.userdata u) a ta, .table s.tables.length) := by
        simp [menvStep, h1]
      refine ⟨by simp [h1], ?_⟩
      rw [hstep]
      have hme5 : (getmenvFreshState s (.userdata u) a ta).moduleEnvs = some a := by
        rw [getmenvFreshState_moduleEnvs, hme]
      have hhit := getmenvFreshState_rawget s (.userdata u) a ta (by omega)
      rw [getmenv_ud_cached_eq _ u a hme5 (by rw [hhit]; simp), hhit]
    · have h1 := getmenv_ud_cached_eq s u a hme hmiss
      refine ⟨by simp [h1], ?_⟩
      have hstep : menvStep s (.userdata u) = (s, rawget s a (.userdata u)) := by
        simp [menvStep, h1]
      rw [hstep]
      exact getmenv_ud_cached_eq s u a hme hmiss
  | none =>
    have hred := getmenv_ud_none_reduce s u hme
    have htaB : ({ s with
        tables := s.tables ++ [⟨[], none, false⟩],
        moduleEnvs := some s.tables.length } : LuaState).getTable
        s.tables.length = some ⟨[], none, false⟩ := by
      simp [LuaState.getTable, List.getElem?_concat_length]
    have hmissB : rawget { s with
        tables := s.tables ++ [⟨[], none, false⟩],
        moduleEnvs := some s.tables.length } s.tables.length (.userdata u) = .nil := by
      simp [rawget, htaB, rawgetE]
    have h1 : lua_getmenv s (.userdata u) = some
        (getmenvFreshState { s with
          tables := s.tables ++ [⟨[], none, false⟩],
          moduleEnvs := some s.tables.length } (.userdata u) s.tables.length
          ⟨[], none, false⟩,
         .table ({ s with
          tables := s.tables ++ [⟨[], none, false⟩],
          moduleEnvs := some s.tables.length } : LuaState).tables.length) :=
      hred.trans (getmenv_ud_fresh_some_eq _ u s.tables.length ⟨[], none, false⟩
        rfl htaB rfl hmissB)
    have hstep : menvStep s (.userdata u) = (getmenvFreshState { s with
        tables := s.tables ++ [⟨[], none, false⟩],
        moduleEnvs := some s.tables.length } (.userdata u) s.tables.length
        ⟨[], none, false⟩,
        .table ({ s with
          tables := s.tables ++ [⟨[], none, false⟩],
          moduleEnvs := some s.tables.length } : LuaState).tables.length) := by
      simp [menvStep, h1]
    refine ⟨by simp [h1], ?_⟩
    rw [hstep]
    have hme5 : (getmenvFreshState { s with
        tables := s.tables ++ [⟨[], none, false⟩],
        moduleEnvs := some s.tables.length } (.userdata u) s.tables.length
        ⟨[], none, false⟩).moduleEnvs = some s.tables.length := by
      rw [getmenvFreshState_moduleEnvs]
    have hhit := getmenvFreshState_rawget { s with
        tables := s.tables ++ [⟨[], none, false⟩],
        moduleEnvs := some s.tables.length } (.userdata u) s.tables.length
      ⟨[], none, false⟩ (by simp; omega)
    rw [getmenv_ud_cached_eq _ u s.tables.length hme5 (by rw [hhit]; simp), hhit]

theorem hookStep_eq {s s' : LuaState} {a b v : Value}
    (h : lua_hookfunction s a b = some (s', v)) : hookStep s a b = s' := by
  simp [hookStep, h]

theorem hookRet_eq {s s' : LuaState} {a b v : Value}
    (h : lua_hookfunction s a b = some (s', v)) : hookRet s a b = v := by
  simp [hookRet, h]

theorem hookfunction_eq (s : LuaState) (t h : Nat) (c : Closure)
    (hc : s.closures[t]? = some c) :
    lua_hookfunction s (.closure t) (.closure h) =
      some ({ s with
              closures := s.closures ++ [c],
              registryRefs := (s.nextRef + 1, .closure h) ::
                (s.nextRef, .closure t) :: s.registryRefs,
              nextRef := s.nextRef + 2,
              hookRegistry := setA s.hookRegistry t ⟨s.nextRef, s.nextRef + 1⟩ },
            .closure s.closures.length) := by
  simp [lua_hookfunction, luaClonefunction, hc, luaRef]

/-! ### Claim theorems -/

/-- Claim C7: `setthreadidentity` raises an error for every integer level
outside `[0,8]` and succeeds for every level from 0 through 8, after which
`get_identity` from the same thread returns that level while other
threads' identities are unaffected. -/
theorem setthreadidentity_range_and_effect (st : IdentityState) (tid : Nat) (n : Int) :
    ((n < 0 ∨ 8 < n) → lua_setthreadidentity st tid n = none) ∧
    (0 ≤ n → n ≤ 8 →
      lua_setthreadidentity st tid n = some (set_current_identity st tid n) ∧
      get_current_identity (set_current_identity st tid n) tid = n ∧
      ∀ tid', tid' ≠ tid →
        get_current_identity (set_current_identity st tid n) tid' =
          get_current_identity st tid') := by
  constructor
  · intro h
    have : n < 0 ∨ n > 8 := by omega
    simp [lua_setthreadidentity, this]
  · intro h0 h8
    have : ¬(n < 0 ∨ n > 8) := by omega
    refine ⟨by simp [lua_setthreadidentity, this], ?_, ?_⟩
    · simp [get_current_identity, set_current_identity, lookupA_setA_self]
    · intro tid' hne
      simp [get_current_identity, set_current_identity,
        lookupA_setA_ne st.identities tid tid' n hne]

/-- Witness for `setthreadidentity_range_and_effect` at a concrete state:
level 9 is rejected, level 3 is stored for thread 0 and thread 1 still
reads the default. -/
theorem setthreadidentity_range_and_effect_witness :
    lua_setthreadidentity ⟨[], 2⟩ 0 9 = none ∧
    lua_setthreadidentity ⟨[], 2⟩ 0 3 = some (set_current_identity ⟨[], 2⟩ 0 3) ∧
    get_current_identity (set_current_identity ⟨[], 2⟩ 0 3) 0 = 3 ∧
    get_current_identity (set_current_identity ⟨[], 2⟩ 0 3) 1 =
      get_current_identity ⟨[], 2⟩ 1 :=
  ⟨(setthreadidentity_range_and_effect ⟨[], 2⟩ 0 9).1 (by decide),
   ((setthreadidentity_range_and_effect ⟨[], 2⟩ 0 3).2 (by decide) (by decide)).1,
   ((setthreadidentity_range_and_effect ⟨[], 2⟩ 0 3).2 (by decide) (by decide)).2.1,
   ((setthreadidentity_range_and_effect ⟨[], 2⟩ 0 3).2 (by decide) (by decide)).2.2 1
     (by decide)⟩

/-- Claim C10: `cloneref` returns its argument itself (raw-equal, same
object identity), `compareinstances(v, cloneref(v))` is true, and a
mutation is visible identically through either handle. -/
theorem cloneref_returns_same_identity (v : Value) (s : LuaState) (a : Nat)
    (k w : Value) :
    lua_cloneref v = v ∧
    lua_compareinstances v (lua_cloneref v) = true ∧
    (∀ s', rawset s a k w = some s' →
      rawgetV s' (lua_cloneref (.table a)) k = rawgetV s' (.table a) k) := by
  refine ⟨rfl, by simp [lua_compareinstances, lua_cloneref], ?_⟩
  intro s' _
  rfl

/-- Witness for `cloneref_returns_same_identity`: a concrete write
through the clone handle reads back identically through the original. -/
theorem cloneref_returns_same_identity_witness :
    lua_cloneref (.table 0) = (.table 0) ∧
    lua_compareinstances (.table 0) (lua_cloneref (.table 0)) = true ∧
    rawgetV (rawsetStepW) (lua_cloneref (.table 0)) (.str "x") =
      rawgetV (rawsetStepW) (.table 0) (.str "x") := by
  refine ⟨(cloneref_returns_same_identity (.table 0) exampleEnvState 0 (.str "x")
      (.number 1)).1,
    (cloneref_returns_same_identity (.table 0) exampleEnvState 0 (.str "x")
      (.number 1)).2.1, ?_⟩
  exact (cloneref_returns_same_identity (.table 0) exampleEnvState 0 (.str "x")
      (.number 1)).2.2 rawsetStepW (by decide)

/-- Claim C9: after `disconnect(i)` releases the callback reference, the
index stays valid, a later `enable(i)` completes, and `fire(i, ...)`
invokes no callback. -/
theorem disconnect_then_enable_fires_nothing (st : ConnState) (id : Nat)
    (c : ConnectionInfo) (hc : st.conns[id]? = some c) :
    (connection_disconnect st id).conns.length = st.conns.length ∧
    (connection_disconnect st id).conns[id]? = some ⟨none, false⟩ ∧
    connection_fire (connection_disconnect st id) id = none ∧
    (connection_enable (connection_disconnect st id) id).conns.length =
      st.conns.length ∧
    connection_fire (connection_enable (connection_disconnect st id) id) id = none := by
  have hid : id < st.conns.length := getElem?_some_lt hc
  have hd : (connection_disconnect st id).conns =
      ((match c.callbackRef with
        | some r => { st with refs := st.refs.filter (fun p => p.1 != r) }
        | none => st) : ConnState).conns.set id ⟨none, false⟩ := by
    simp [connection_disconnect, hc]
  have hdc : (connection_disconnect st id).conns = st.conns.set id ⟨none, false⟩ := by
    rw [hd]; cases c.callbackRef <;> rfl
  have hlen : (connection_disconnect st id).conns.length = st.conns.length := by
    rw [hdc]; exact List.length_set st.conns id _
  have hget : (connection_disconnect st id).conns[id]? = some ⟨none, false⟩ := by
    rw [hdc]; exact List.getElem?_set_self (by simpa using hid)
  refine ⟨hlen, hget, ?_, ?_, ?_⟩
  · simp [connection_fire, hget]
  · simp [connection_enable, hget, List.length_set, hlen]
  · have hge : (connection_enable (connection_disconnect st id) id).conns[id]? =
        some ⟨none, true⟩ := by
      simp [connection_enable, hget]
      exact List.getElem?_set_self (by simp [hlen]; omega)
    simp [connection_fire, hge]

/-- Witness for `disconnect_then_enable_fires_nothing` on a one-element
connection list holding a live callback reference. -/
theorem disconnect_then_enable_fires_nothing_witness :
    (connection_disconnect exampleConnState 0).conns.length = 1 ∧
    connection_fire (connection_disconnect exampleConnState 0) 0 = none ∧
    connection_fire
      (connection_enable (connection_disconnect exampleConnState 0) 0) 0 = none := by
  have h := disconnect_then_enable_fires_nothing exampleConnState 0
    ⟨some 7, true⟩ (by decide)
  exact ⟨h.1, h.2.2.1, h.2.2.2.2⟩

/-- Claim C4: `restorefunction` never raises on a never-hooked target or
when called twice; afterwards no hook record exists for the target, and a
restored Lua closure reports `isexecutorclosure = false`. -/
theorem restorefunction_idempotent_safe (s : LuaState) (t : Nat)
    (c : Closure) (hc : s.closures[t]? = some c) (hlc : c.isC = false) :
    ∃ s', lua_restorefunction s (.closure t) = some s' ∧
      lookupA s'.hookRegistry t = none ∧
      lua_restorefunction s' (.closure t) = some s' ∧
      lua_isexecutorclosure s' (.closure t) = some false := by
  cases h : lookupA s.hookRegistry t with
  | none =>
    refine ⟨s, by simp [lua_restorefunction, h], h, by simp [lua_restorefunction, h], ?_⟩
    simp [lua_isexecutorclosure, hc, hlc, h]
  | some e =>
    refine ⟨{ luaUnref (luaUnref s e.originalRef) e.hookRef with
              hookRegistry := eraseA s.hookRegistry t }, ?_, ?_, ?_, ?_⟩
    · simp [lua_restorefunction, h, luaUnref]
    · exact lookupA_eraseA_self _ t
    · simp [lua_restorefunction, lookupA_eraseA_self _ t]
    · simp [lua_isexecutorclosure, luaUnref, hc, hlc, lookupA_eraseA_self _ t]

/-- Witness for `restorefunction_idempotent_safe`: restoring the
never-hooked Lua closure 0 of `exampleHookState` succeeds, leaves no
record and reports not-executor. -/
theorem restorefunction_idempotent_safe_witness :
    lua_restorefunction exampleHookState (.closure 0) = some exampleHookState ∧
    lookupA exampleHookState.hookRegistry 0 = none ∧
    lua_isexecutorclosure exampleHookState (.closure 0) = some false := by
  obtain ⟨s', h1, h2, h3, h4⟩ := restorefunction_idempotent_safe exampleHookState 0
    ⟨0, false, none⟩ (by decide) (by decide)
  have hs : s' = exampleHookState := by
    have : lua_restorefunction exampleHookState (.closure 0) =
        some exampleHookState := by decide
    rw [this] at h1
    exact (Option.some_injective _ h1).symm
  rw [hs] at h2 h4
  exact ⟨by decide, h2, h4⟩

/-- Claim C1 (counterexample): hooking closure 0 with closure 1 and then
with closure 2 leaves the first call's two registry references (ids 0 and
1, pinning the old original and old replacement) still held, and four
held references in total — the previous record's references are not
released before the overwrite, contradicting the claim that no held
references accumulate across repeated hooks of the same target. -/
theorem hookfunction_rehook_leaves_old_refs_counterexample :
    lookupA exampleRehooked.registryRefs 0 = some (.closure 0) ∧
    lookupA exampleRehooked.registryRefs 1 = some (.closure 1) ∧
    exampleRehooked.registryRefs.length = 4 := by decide

/-- Claim C1 (amended): hooking an already-hooked target overwrites the
hook record by map assignment, so at most one record exists per target
identity and the latest record's reference ids are current; but the
previously held references to the old original and old replacement are
NOT released — they stay in the registry, and the held-reference count
grows by four (two per hook call) across the two hooks. -/
theorem hookfunction_rehook_overwrites_but_leaks
    (s : LuaState) (t h1 h2 : Nat) (c : Closure)
    (hc : s.closures[t]? = some c) :
    (lua_hookfunction s (.closure t) (.closure h1)).isSome ∧
    (lua_hookfunction (hookStep s (.closure t) (.closure h1))
      (.closure t) (.closure h2)).isSome ∧
    ((hookStep (hookStep s (.closure t) (.closure h1)) (.closure t)
        (.closure h2)).hookRegistry.filter (fun p => p.1 == t)).length = 1 ∧
    lookupA (hookStep (hookStep s (.closure t) (.closure h1)) (.closure t)
        (.closure h2)).hookRegistry t = some ⟨s.nextRef + 2, s.nextRef + 3⟩ ∧
    lookupA (hookStep (hookStep s (.closure t) (.closure h1)) (.closure t)
        (.closure h2)).registryRefs s.nextRef = some (.closure t) ∧
    lookupA (hookStep (hookStep s (.closure t) (.closure h1)) (.closure t)
        (.closure h2)).registryRefs (s.nextRef + 1) = some (.closure h1) ∧
    (hookStep (hookStep s (.closure t) (.closure h1)) (.closure t)
        (.closure h2)).registryRefs.length = s.registryRefs.length + 4 := by
  have ht : t < s.closures.length := getElem?_some_lt hc
  have h1eq := hookfunction_eq s t h1 c hc
  have hs1 : hookStep s (.closure t) (.closure h1) =
      { s with
        closures := s.closures ++ [c],
        registryRefs := (s.nextRef + 1, .closure h1) ::
          (s.nextRef, .closure t) :: s.registryRefs,
        nextRef := s.nextRef + 2,
        hookRegistry := setA s.hookRegistry t ⟨s.nextRef, s.nextRef + 1⟩ } := by
    simp [hookStep, h1eq]
  have hc2 : (hookStep s (.closure t) (.closure h1)).closures[t]? = some c := by
    rw [hs1]
    simpa [List.getElem?_append_left ht] using hc
  have h2eq := hookfunction_eq (hookStep s (.closure t) (.closure h1)) t h2 c hc2
  have hs2 : hookStep (hookStep s (.closure t) (.closure h1)) (.closure t)
      (.closure h2) =
      { s with
        closures := (s.closures ++ [c]) ++ [c],
        registryRefs := (s.nextRef + 3, .closure h2) ::
          (s.nextRef + 2, .closure t) :: (s.nextRef + 1, .closure h1) ::
          (s.nextRef, .closure t) :: s.registryRefs,
        nextRef := s.nextRef + 4,
        hookRegistry := setA (setA s.hookRegistry t ⟨s.nextRef, s.nextRef + 1⟩) t
          ⟨s.nextRef + 2, s.nextRef + 3⟩ } := by
    rw [hookStep, h2eq, hs1]
  have n2 : ¬ s.nextRef + 3 = s.nextRef := by omega
  have n3 : ¬ s.nextRef + 2 = s.nextRef := by omega
  have n4 : ¬ s.nextRef + 1 = s.nextRef := by omega
  have n5 : ¬ s.nextRef + 3 = s.nextRef + 1 := by omega
  have n6 : ¬ s.nextRef + 2 = s.nextRef + 1 := by omega
  refine ⟨by rw [h1eq]; rfl, by rw [h2eq]; rfl, ?_, ?_, ?_, ?_, ?_⟩
  · rw [hs2]; exact filter_key_setA _ t _
  · rw [hs2]; exact lookupA_setA_self _ t _
  · rw [hs2]; simp [lookupA, n2, n3, n4]
  · rw [hs2]; simp [lookupA, n2, n3, n4, n5, n6]
  · rw [hs2]; simp

/-- Witness for `hookfunction_rehook_overwrites_but_leaks` at
`exampleHookState` (hook closure 0 with 1, then with 2). -/
theorem hookfunction_rehook_overwrites_but_leaks_witness :
    (lua_hookfunction exampleHookState (.closure 0) (.closure 1)).isSome ∧
    (lua_hookfunction (hookStep exampleHookState (.closure 0) (.closure 1))
      (.closure 0) (.closure 2)).isSome ∧
    ((hookStep (hookStep exampleHookState (.closure 0) (.closure 1)) (.closure 0)
        (.closure 2)).hookRegistry.filter (fun p => p.1 == 0)).length = 1 ∧
    lookupA (hookStep (hookStep exampleHookState (.closure 0) (.closure 1))
        (.closure 0) (.closure 2)).hookRegistry 0 =
      some ⟨exampleHookState.nextRef + 2, exampleHookState.nextRef + 3⟩ ∧
    lookupA (hookStep (hookStep exampleHookState (.closure 0) (.closure 1))
        (.closure 0) (.closure 2)).registryRefs exampleHookState.nextRef =
      some (.closure 0) ∧
    lookupA (hookStep (hookStep exampleHookState (.closure 0) (.closure 1))
        (.closure 0) (.closure 2)).registryRefs (exampleHookState.nextRef + 1) =
      some (.closure 1) ∧
    (hookStep (hookStep exampleHookState (.closure 0) (.closure 1)) (.closure 0)
        (.closure 2)).registryRefs.length =
      exampleHookState.registryRefs.length + 4 :=
  hookfunction_rehook_overwrites_but_leaks exampleHookState 0 1 2
    ⟨0, false, none⟩ (by decide)

/-- Claim C2: `hookfunction` rejects non-callable arguments with a type
error; on callables it returns a fresh callable with a distinct identity
from the target that reproduces the target's behavior as of this call —
in particular, after a first hook and a host-side behavior redirect of
the target, the clone returned by a second hook reproduces the redirected
behavior, not the pre-first-hook behavior. -/
theorem hookfunction_typecheck_and_clone
    (s : LuaState) (t h bnew : Nat) (c : Closure)
    (hc : s.closures[t]? = some c) :
    (∀ a b : Value, a.isFunction = false ∨ b.isFunction = false →
      lua_hookfunction s a b = none) ∧
    ((lua_hookfunction s (.closure t) (.closure h)).isSome ∧
     hookRet s (.closure t) (.closure h) = .closure s.closures.length ∧
     s.closures.length ≠ t ∧
     (hookStep s (.closure t) (.closure h)).closures[s.closures.length]? = some c) ∧
    (hookRet (overwriteBehavior (hookStep s (.closure t) (.closure h)) t bnew)
        (.closure t) (.closure h) =
      .closure (overwriteBehavior (hookStep s (.closure t) (.closure h)) t
        bnew).closures.length ∧
     (hookStep (overwriteBehavior (hookStep s (.closure t) (.closure h)) t bnew)
        (.closure t) (.closure h)).closures[(overwriteBehavior
          (hookStep s (.closure t) (.closure h)) t bnew).closures.length]? =
      some { c with behavior := bnew }) := by
  have ht : t < s.closures.length := getElem?_some_lt hc
  have h1eq := hookfunction_eq s t h c hc
  have hs1 : (hookStep s (.closure t) (.closure h)).closures = s.closures ++ [c] := by
    rw [hookStep_eq h1eq]
  have hc1 : (s.closures ++ [c])[t]? = some c := by
    rw [List.getElem?_append_left ht]; exact hc
  have hob : (overwriteBehavior (hookStep s (.closure t) (.closure h)) t
      bnew).closures = (s.closures ++ [c]).set t { c with behavior := bnew } := by
    simp [overwriteBehavior, hs1, hc1]
  have hcob : (overwriteBehavior (hookStep s (.closure t) (.closure h)) t
      bnew).closures[t]? = some { c with behavior := bnew } := by
    rw [hob]
    exact List.getElem?_set_self (by simp; omega)
  have h2eq := hookfunction_eq (overwriteBehavior (hookStep s (.closure t)
    (.closure h)) t bnew) t h { c with behavior := bnew } hcob
  refine ⟨?_, ⟨by rw [h1eq]; rfl, hookRet_eq h1eq, ?_, ?_⟩, hookRet_eq h2eq, ?_⟩
  · intro a b hab
    cases a <;> cases b <;> simp_all [lua_hookfunction, Value.isFunction]
  · omega
  · rw [hs1]
    exact List.getElem?_concat_length _ _
  · have hclo : (hookStep (overwriteBehavior (hookStep s (.closure t) (.closure h))
        t bnew) (.closure t) (.closure h)).closures =
        (overwriteBehavior (hookStep s (.closure t) (.closure h)) t
          bnew).closures ++ [{ c with behavior := bnew }] := by
      rw [hookStep_eq h2eq]
    rw [hclo]
    exact List.getElem?_concat_length _ _

/-- Witness for `hookfunction_typecheck_and_clone` at `exampleHookState`:
hooking closure 0 with closure 1, redirecting closure 0 to behavior 5,
then hooking again. -/
theorem hookfunction_typecheck_and_clone_witness :
    lua_hookfunction exampleHookState (.number 3) (.closure 1) = none ∧
    hookRet exampleHookState (.closure 0) (.closure 1) = .closure 3 ∧
    (hookStep exampleHookState (.closure 0) (.closure 1)).closures[3]? =
      some ⟨0, false, none⟩ ∧
    (hookStep (overwriteBehavior (hookStep exampleHookState (.closure 0)
        (.closure 1)) 0 5) (.closure 0) (.closure 1)).closures[(overwriteBehavior
          (hookStep exampleHookState (.closure 0) (.closure 1)) 0
          5).closures.length]? = some ⟨5, false, none⟩ := by
  have h := hookfunction_typecheck_and_clone exampleHookState 0 1 5
    ⟨0, false, none⟩ (by decide)
  exact ⟨h.1 (.number 3) (.closure 1) (by decide), h.2.1.2.1, h.2.1.2.2.2, h.2.2.2⟩

theorem filtergcLoop_eq_filter (o : FilterOptions) (kindFn : Bool)
    (objs : List GCObj) :
    filtergcLoop o kindFn objs = objs.filter (fun x =>
      match x, kindFn with
      | .fn f, true => funcMatches o f
      | .tbl _, false => true
      | _, _ => false) := by
  induction objs with
  | nil => rfl
  | cons hd tl ih =>
    cases hd <;> cases kindFn <;>
      simp [filtergcLoop, List.filter_cons, ih]

theorem funcMatches_nameOnly (n : String) (f : GCFun) :
    funcMatches ⟨some n, none, none, false⟩ f = true ↔
      (f.isC = true ∨ f.name = some n) := by
  by_cases hC : f.isC
  · simp [funcMatches, hC]
  · cases hn : f.name with
    | none => simp [funcMatches, hC, hn]
    | some fn => simp [funcMatches, hC, hn]

/-- Claim C8 (counterexample): `filtergc("function", {Name="alpha"})` on
a registry holding a single C function named `"beta"` returns that C
function — a function whose declared name differs from the criterion
appears in the result, because the loop applies the criteria only to
non-C functions. -/
theorem filtergc_name_filter_counterexample :
    lua_filtergc [exampleCFun] "function" ⟨some "alpha", none, none, false⟩ =
      some [exampleCFun] ∧
    (⟨true, some "beta", 0, ""⟩ : GCFun).name ≠ some "alpha" := by
  exact ⟨by decide, by decide⟩

/-- Claim C8 (amended): `filtergc` errors for every kind other than
`"function"` and `"table"`; for kind `"function"` with only a `Name`
criterion the result holds exactly the registry entries that are
functions and are either C functions (to which no criterion is applied)
or Lua closures whose declared name equals the criterion. -/
theorem filtergc_kind_check_and_name_filter
    (objs : List GCObj) (kind : String) (o : FilterOptions) (n : String) :
    (kind ≠ "function" → kind ≠ "table" → lua_filtergc objs kind o = none) ∧
    (o = ⟨some n, none, none, false⟩ →
      lua_filtergc objs "function" o = some (filtergcLoop o true objs) ∧
      ∀ x, x ∈ filtergcLoop o true objs ↔
        x ∈ objs ∧ ∃ f, x = GCObj.fn f ∧ (f.isC = true ∨ f.name = some n)) := by
  constructor
  · intro h1 h2
    simp [lua_filtergc, h1, h2]
  · intro ho
    subst ho
    refine ⟨by simp [lua_filtergc], fun x => ?_⟩
    rw [filtergcLoop_eq_filter, List.mem_filter]
    constructor
    · rintro ⟨hx, hp⟩
      cases x with
      | fn f => exact ⟨hx, f, rfl, (funcMatches_nameOnly n f).mp hp⟩
      | tbl i => simp at hp
      | ud i => simp at hp
      | thr i => simp at hp
    · rintro ⟨hx, f, rfl, hf⟩
      exact ⟨hx, (funcMatches_nameOnly n f).mpr hf⟩

/-- Witness for `filtergc_kind_check_and_name_filter`: kind `"userdata"`
errors; on `exampleGCReg`, the `"alpha"` Lua closure is kept and the
`"beta"` Lua closure is excluded. -/
theorem filtergc_kind_check_and_name_filter_witness :
    lua_filtergc exampleGCReg "userdata" ⟨some "alpha", none, none, false⟩ = none ∧
    lua_filtergc exampleGCReg "function" ⟨some "alpha", none, none, false⟩ =
      some (filtergcLoop ⟨some "alpha", none, none, false⟩ true exampleGCReg) ∧
    GCObj.fn ⟨false, some "alpha", 0, ""⟩ ∈
      filtergcLoop ⟨some "alpha", none, none, false⟩ true exampleGCReg ∧
    ¬ GCObj.fn ⟨false, some "beta", 0, ""⟩ ∈
      filtergcLoop ⟨some "alpha", none, none, false⟩ true exampleGCReg := by
  have h := filtergc_kind_check_and_name_filter exampleGCReg "userdata"
    ⟨some "alpha", none, none, false⟩ "alpha"
  have h2 := filtergc_kind_check_and_name_filter exampleGCReg "function"
    ⟨some "alpha", none, none, false⟩ "alpha"
  refine ⟨h.1 (by decide) (by decide), (h2.2 rfl).1, ?_, ?_⟩
  · exact ((h2.2 rfl).2 _).mpr
      ⟨by simp [exampleGCReg], ⟨false, some "alpha", 0, ""⟩, rfl, by decide⟩
  · intro hmem
    obtain ⟨-, f, hf, hor⟩ := ((h2.2 rfl).2 _).mp hmem
    cases hf
    revert hor
    decide

/-- Claim C5: `hookmetamethod` errors when the object has no metatable or
the method is absent from it; otherwise it overwrites the metatable's
entry with the replacement, leaves the read-only flag exactly as it was,
and returns a fresh clone of the original handler. -/
theorem hookmetamethod_guards_write_readonly
    (s : LuaState) (obj : Value) (method : String) (r : Nat)
    (mt : Nat) (mtT : Table) (oa : Nat) (oc : Closure) :
    (luaGetmetatable s obj = none →
      lua_hookmetamethod s obj method (.closure r) = none) ∧
    (luaGetmetatable s obj = some mt → luaGet s 100 mt (.str method) = some .nil →
      lua_hookmetamethod s obj method (.closure r) = none) ∧
    (luaGetmetatable s obj = some mt → s.getTable mt = some mtT →
     rawgetE mtT.entries (.str method) = .closure oa →
     s.closures[oa]? = some oc →
      lua_hookmetamethod s obj method (.closure r) =
        some ({ s with
                closures := s.closures ++ [oc],
                tables := s.tables.set mt
                  { mtT with
                    entries := rawsetE mtT.entries (.str method) (.closure r) } },
              .closure s.closures.length) ∧
      s.closures.length ≠ oa ∧
      rawgetE (rawsetE mtT.entries (.str method) (.closure r)) (.str method) =
        .closure r) := by
  refine ⟨?_, ?_, ?_⟩
  · intro hmt
    simp [lua_hookmetamethod, hmt]
  · intro hmt hnil
    simp [lua_hookmetamethod, hmt, hnil]
  · intro hmt hmtT hraw hoc
    have hoa : oa < s.closures.length := getElem?_some_lt hoc
    have hmtlt : mt < s.tables.length :=
      getElem?_some_lt (show s.tables[mt]? = some mtT from hmtT)
    have hget : luaGet s 100 mt (.str method) = some (.closure oa) :=
      luaGet_raw_hit s 99 mt mtT (.str method) (.closure oa) hmtT hraw (by simp)
    have hclone : luaClonefunction s oa =
        some ({ s with closures := s.closures ++ [oc] }, s.closures.length) := by
      simp [luaClonefunction, hoc]
    have hs1T : ({ s with closures := s.closures ++ [oc] } : LuaState).getTable mt =
        some mtT := hmtT
    refine ⟨?_, by omega, rawgetE_rawsetE_self _ _ _ (by simp)⟩
    cases hro : mtT.readonly with
    | false =>
      have hset := luaSet_raw_hit ({ s with closures := s.closures ++ [oc] })
        99 mt mtT (.str method) (.closure r) (.closure oa) hs1T hraw (by simp)
        hro (by simp)
      simp [lua_hookmetamethod, hmt, hget, hclone, hs1T, hro, hset,
        LuaState.setTable]
    | true =>
      have hs2T : (({ s with closures := s.closures ++ [oc] } : LuaState).setTable
          mt { mtT with readonly := false }).getTable mt =
          some { mtT with readonly := false } :=
        getTable_setTable_self _ _ mt hmtlt
      have hset := luaSet_raw_hit (({ s with closures := s.closures ++ [oc] }
          : LuaState).setTable mt { mtT with readonly := false })
        99 mt { mtT with readonly := false } (.str method) (.closure r)
        (.closure oa) hs2T hraw (by simp) (by simp) (by simp)
      have hs3T : ((({ s with closures := s.closures ++ [oc] } : LuaState).setTable
          mt { mtT with readonly := false }).setTable mt
          { mtT with
            readonly := false,
            entries := rawsetE mtT.entries (.str method) (.closure r) }).getTable
          mt = some { mtT with
            readonly := false,
            entries := rawsetE mtT.entries (.str method) (.closure r) } :=
        getTable_setTable_self _ _ mt (by simpa [LuaState.setTable] using hmtlt)
      simp only [LuaState.setTable] at hs2T hset hs3T
      have hfinal : ({ s with
          tables := s.tables.set mt
            { entries := rawsetE mtT.entries (.str method) (.closure r),
              meta := mtT.meta, readonly := false },
          closures := s.closures ++ [oc] } : LuaState).getTable mt =
          some { entries := rawsetE mtT.entries (.str method) (.closure r),
                 meta := mtT.meta, readonly := false } := by
        simp only [LuaState.getTable]
        exact List.getElem?_set_self hmtlt
      simp [lua_hookmetamethod, hmt, hget, hclone, hs1T, hro, hset, hs3T,
        LuaState.setTable, List.set_set, hfinal]

/-- Witness for `hookmetamethod_guards_write_readonly`: on a concrete
state with a read-only metatable carrying an `__index` closure, the
method entry is replaced, the flag stays read-only, and the clone is
fresh. -/
theorem hookmetamethod_guards_write_readonly_witness :
    lua_hookmetamethod exampleMetaState (.table 0) "__index" (.closure 1) =
      some ({ exampleMetaState with
              closures := exampleMetaState.closures ++ [⟨0, false, none⟩],
              tables := exampleMetaState.tables.set 1
                { entries := rawsetE [(.str "__index", .closure 0)]
                    (.str "__index") (.closure 1),
                  meta := none, readonly := true } },
            .closure 2) ∧
    lua_hookmetamethod exampleMetaState (.number 4) "__index" (.closure 1) = none := by
  have h := hookmetamethod_guards_write_readonly exampleMetaState (.table 0)
    "__index" 1 1 ⟨[(.str "__index", .closure 0)], none, true⟩ 0 ⟨0, false, none⟩
  have h2 := hookmetamethod_guards_write_readonly exampleMetaState (.number 4)
    "__index" 1 1 ⟨[(.str "__index", .closure 0)], none, true⟩ 0 ⟨0, false, none⟩
  exact ⟨(h.2.2 (by decide) (by decide) (by decide) (by decide)).1,
    h2.1 (by decide)⟩

/-- Claim C3 (counterexample): `getmenv` with a table-typed key takes the
catch-all branch and allocates a fresh table on every call — two
consecutive calls with the same key return different instances, so
referential stability fails for `module_env` on such keys. -/
theorem getmenv_table_key_unstable_counterexample :
    (menvStep exampleEnvState (.table 0)).2 ≠
      (menvStep (menvStep exampleEnvState (.table 0)).1 (.table 0)).2 := by
  decide

/-- Claim C3 (amended): `getsenv` is referentially stable for every
non-nil key (a second call returns the same state and the same
environment instance), and `getmenv` is stable for userdata keys
(cached) and function keys (the function's own environment); but for any
other key (`nil`, boolean, number, string, table) every `getmenv` call
allocates and returns a fresh, distinct table. -/
theorem env_referential_stability (s : LuaState) :
    (∀ k : Value, k ≠ .nil → scriptEnvsWritable s = true →
      (lua_getsenv s k).isSome ∧
      lua_getsenv (senvStep s k).1 k = some (senvStep s k)) ∧
    (∀ u : Nat, moduleEnvsWritable s = true →
      (lua_getmenv s (.userdata u)).isSome ∧
      lua_getmenv (menvStep s (.userdata u)).1 (.userdata u) =
        some (menvStep s (.userdata u))) ∧
    (∀ (a e : Nat) (c : Closure), s.closures[a]? = some c → c.envAddr = some e →
      lua_getmenv s (.closure a) = some (s, .table e)) ∧
    (∀ k : Value, k.isEnvOpaque = true →
      (menvStep s k).2 = .table s.tables.length ∧
      (menvStep (menvStep s k).1 k).2 = .table (s.tables.length + 1) ∧
      (menvStep s k).2 ≠ (menvStep (menvStep s k).1 k).2) := by
  refine ⟨fun k hk hw => getsenv_stable s k hk hw,
          fun u hw => getmenv_ud_stable s u hw, ?_, ?_⟩
  · intro a e c hc he
    simp [lua_getmenv, hc, he]
  · intro k hop
    have h1 : lua_getmenv s k =
        some ((s.newTable ⟨[], none, false⟩).1, .table s.tables.length) := by
      cases k <;> simp_all [lua_getmenv, Value.isEnvOpaque, LuaState.newTable]
    have hs1 : (menvStep s k).1 = (s.newTable ⟨[], none, false⟩).1 := by
      simp [menvStep, h1]
    have hv1 : (menvStep s k).2 = .table s.tables.length := by
      simp [menvStep, h1]
    have h2 : lua_getmenv (s.newTable ⟨[], none, false⟩).1 k =
        some (((s.newTable ⟨[], none, false⟩).1.newTable ⟨[], none, false⟩).1,
          .table ((s.newTable ⟨[], none, false⟩).1.tables.length)) := by
      cases k <;> simp_all [lua_getmenv, Value.isEnvOpaque, LuaState.newTable]
    have hv2 : (menvStep (menvStep s k).1 k).2 = .table (s.tables.length + 1) := by
      rw [hs1]
      simp only [LuaState.newTable] at h2
      simp [menvStep, h2, LuaState.newTable]
    refine ⟨hv1, hv2, ?_⟩
    rw [hv1, hv2]
    simp

/-- Witness for `env_referential_stability` at concrete states: a string
key for `getsenv`, userdata key 0 for `getmenv`, the closure of
`exampleFnState` for the function path, and a table key for the fresh
path. -/
theorem env_referential_stability_witness :
    ((lua_getsenv exampleEnvState (.str "s")).isSome ∧
      lua_getsenv (senvStep exampleEnvState (.str "s")).1 (.str "s") =
        some (senvStep exampleEnvState (.str "s"))) ∧
    ((lua_getmenv exampleEnvState (.userdata 0)).isSome ∧
      lua_getmenv (menvStep exampleEnvState (.userdata 0)).1 (.userdata 0) =
        some (menvStep exampleEnvState (.userdata 0))) ∧
    lua_getmenv exampleFnState (.closure 0) = some (exampleFnState, .table 0) ∧
    (menvStep exampleEnvState (.table 0)).2 ≠
      (menvStep (menvStep exampleEnvState (.table 0)).1 (.table 0)).2 := by
  have h := env_referential_stability exampleEnvState
  have h2 := env_referential_stability exampleFnState
  exact ⟨h.1 (.str "s") (by decide) (by decide),
    h.2.1 0 (by decide),
    h2.2.2.1 0 0 ⟨0, false, some 0⟩ (by decide) (by decide),
    (h.2.2.2 (.table 0) (by decide)).2.2⟩

/-- Claim C6: writing a key into the table returned by `getsenv(k)`
stores the value in that table only — a read through the same instance
sees the new value, while the host global table, the `getgenv` table,
and a different `getsenv(k2)` instance are unchanged (the latter still
reads the host global for that key); a read of an absent key falls back
to the host globals. -/
theorem scriptenv_write_isolation (g ge : List (Value × Value))
    (k k2 key v q : Value)
    (hk : k ≠ .nil) (hk2 : k2 ≠ .nil) (hne : k ≠ k2) (hkey : key ≠ .nil)
    (hv : v ≠ .nil) (hq : q ≠ key) :
    lua_getsenv (mkC6State g ge) k = some (c6S1 g ge k, .table 4) ∧
    lua_getsenv (c6S1 g ge k) k2 = some (c6S2 g ge k k2, .table 6) ∧
    (Value.table 4) ≠ (Value.table 6) ∧
    luaSet (c6S2 g ge k k2) 100 4 key v = some (c6S3 g ge k k2 key v) ∧
    luaGet (c6S3 g ge k k2 key v) 100 4 key = some v ∧
    (c6S3 g ge k k2 key v).tables[0]? = some ⟨g, none, false⟩ ∧
    push_global_env (c6S3 g ge k k2 key v) = (c6S3 g ge k k2 key v, 1) ∧
    (c6S3 g ge k k2 key v).tables[1]? = some ⟨ge, some 2, false⟩ ∧
    (c6S3 g ge k k2 key v).tables[6]? = some ⟨[], some 7, false⟩ ∧
    luaGet (c6S3 g ge k k2 key v) 100 6 key = some (rawgetE g key) ∧
    luaGet (c6S3 g ge k k2 key v) 100 4 q = some (rawgetE g q) := by
  have h1 : lua_getsenv (mkC6State g ge) k = some (c6S1 g ge k, .table 4) := by
    rw [getsenv_none_reduce _ _ rfl]
    rw [getsenv_fresh_some_eq { mkC6State g ge with
        tables := (mkC6State g ge).tables ++ [⟨[], none, false⟩],
        scriptEnvs := some (mkC6State g ge).tables.length } k 3 ⟨[], none, false⟩
      hk rfl rfl rfl rfl]
    simp [getsenvFreshState, mkC6State, c6S1, LuaState.newTable,
      LuaState.setTable, rawsetE]
  have hmiss2 : rawget (c6S1 g ge k) 3 k2 = .nil := by
    have hne2 : ¬ k = k2 := hne
    simp [rawget, c6S1, LuaState.getTable, rawgetE, hne2]
  have h2 : lua_getsenv (c6S1 g ge k) k2 = some (c6S2 g ge k k2, .table 6) := by
    rw [getsenv_fresh_some_eq (c6S1 g ge k) k2 3 ⟨[(k, .table 4)], none, false⟩
      hk2 rfl rfl rfl hmiss2]
    have hne2 : ¬ k = k2 := hne
    simp [getsenvFreshState, c6S1, c6S2, LuaState.newTable, LuaState.setTable,
      rawsetE, hne2]
  have h3 : luaSet (c6S2 g ge k k2) 100 4 key v =
      some (c6S3 g ge k k2 key v) := by
    have := luaSet_miss_noNewindex (c6S2 g ge k k2) 99 4 5 ⟨[], some 5, false⟩
      ⟨[(.str "__index", .table 0)], none, false⟩ key v rfl rfl rfl rfl
      (by decide) hkey rfl
    rw [this]
    simp [c6S2, c6S3, LuaState.setTable, rawsetE, hv]
  have hB : luaGet (c6S3 g ge k k2 key v) 100 4 key = some v := by
    have := luaGet_raw_hit (c6S3 g ge k k2 key v) 99 4 ⟨[(key, v)], some 5, false⟩
      key v rfl (by simp [rawgetE]) hv
    exact this
  have hE : luaGet (c6S3 g ge k k2 key v) 100 6 key = some (rawgetE g key) := by
    have hstep := luaGet_via_index (c6S3 g ge k k2 key v) 99 6 7 0
      ⟨[], some 7, false⟩ key rfl rfl rfl rfl
    rw [hstep]
    exact luaGet_noMeta _ 98 0 ⟨g, none, false⟩ key rfl rfl
  have hF : luaGet (c6S3 g ge k k2 key v) 100 4 q = some (rawgetE g q) := by
    have hmq : rawgetE [(key, v)] q = .nil := by
      have hqk : ¬ key = q := fun e => hq e.symm
      simp [rawgetE, hqk]
    have hstep := luaGet_via_index (c6S3 g ge k k2 key v) 99 4 5 0
      ⟨[(key, v)], some 5, false⟩ q rfl hmq rfl rfl
    rw [hstep]
    exact luaGet_noMeta _ 98 0 ⟨g, none, false⟩ q rfl rfl
  exact ⟨h1, h2, by simp, h3, hB, rfl, rfl, rfl, rfl, hE, hF⟩

/-- Witness for `scriptenv_write_isolation` at concrete contents and
keys. -/
theorem scriptenv_write_isolation_witness :
    lua_getsenv (mkC6State [(.str "print", .number 10)] []) (.str "a") =
      some (c6S1 [(.str "print", .number 10)] [] (.str "a"), .table 4) ∧
    luaSet (c6S2 [(.str "print", .number 10)] [] (.str "a") (.str "b")) 100 4
        (.str "x") (.number 1) =
      some (c6S3 [(.str "print", .number 10)] [] (.str "a") (.str "b")
        (.str "x") (.number 1)) ∧
    luaGet (c6S3 [(.str "print", .number 10)] [] (.str "a") (.str "b")
        (.str "x") (.number 1)) 100 4 (.str "x") = some (.number 1) ∧
    luaGet (c6S3 [(.str "print", .number 10)] [] (.str "a") (.str "b")
        (.str "x") (.number 1)) 100 6 (.str "x") =
      some (rawgetE [(.str "print", .number 10)] (.str "x")) ∧
    luaGet (c6S3 [(.str "print", .number 10)] [] (.str "a") (.str "b")
        (.str "x") (.number 1)) 100 4 (.str "print") =
      some (rawgetE [(.str "print", .number 10)] (.str "print")) := by
  have h := scriptenv_write_isolation [(.str "print", .number 10)] []
    (.str "a") (.str "b") (.str "x") (.number 1) (.str "print")
    (by decide) (by decide) (by decide) (by decide) (by decide) (by decide)
  exact ⟨h.1, h.2.2.2.1, h.2.2.2.2.1, h.2.2.2.2.2.2.2.2.2.1, h.2.2.2.2.2.2.2.2.2.2⟩

end Xoron
